import Mathlib

/-!
Verification of the temporal reconciliation engine of `src/main.py`
(umamusume-tracker).

Modelling conventions:
* instants are integer Unix epoch seconds (the Python code compares
  `datetime` values via `.timestamp()`, and all instants reaching the
  functions below are whole seconds);
* real-valued intermediate quantities (ratios, fractional day counts) are
  rationals;
* Python floor division `//` on integers (and on an integer by a positive
  float) is `Int.fdiv` resp. `Int.floor` of the rational quotient;
* `datetime.replace(hour=22, minute=0, second=0, microsecond=0)` on a UTC
  datetime keeps the calendar day and pins the clock time, i.e. it maps a
  timestamp `x` to `86400 * floor(x / 86400) + 22 * 3600`;
* a raised exception is modelled as `Except.error`; functions proved total
  are given directly;
* naive-datetime `.timestamp()` calls are modelled with a UTC local zone
  (the claims settled here do not depend on the host zone offset).
-/

namespace UmaTracker

/-- A confirmed (JP, Global) anchor pair, one entry of the
`confirmed_pairs` list: the Python dicts `{"jp": datetime, "global": datetime}`
built in `fetch_uma_moe_upcoming`. -/
structure Pair where
  jp : Int
  global : Int
deriving DecidableEq, Repr

/-- Line 469/470: `int((end - start).total_seconds() // 86400)`. -/
def uma_moe_days_between (start finish : Int) : Int :=
  (finish - start).fdiv 86400

/-- Line 482: `sorted(confirmed_pairs, key=lambda p: p["global"].timestamp())`.
Python `sorted` is a stable sort, and so is `List.insertionSort`, so the two
agree as functions of the input list. -/
def sortPairsByGlobal (l : List Pair) : List Pair :=
  List.insertionSort (fun p q => p.global ≤ q.global) l

/-- Line 516: `sorted(confirmed_pairs, key=lambda p: p["jp"].timestamp())`. -/
def sortPairsByJp (l : List Pair) : List Pair :=
  List.insertionSort (fun p q => p.jp ≤ q.jp) l

/-- Lines 490-497: the loop summing, over consecutive pairs of the window,
the JP day deltas and the Global day deltas, skipping consecutive pairs
whose global day delta is not `> 0`.  Returns `(jp_sum, gl_sum)`. -/
def sumWindowDeltas : List Pair → Int × Int
  | [] => (0, 0)
  | [_] => (0, 0)
  | p :: q :: rest =>
      let s := sumWindowDeltas (q :: rest)
      let jp_days := uma_moe_days_between p.jp q.jp
      let gl_days := uma_moe_days_between p.global q.global
      if 0 < gl_days then (s.1 + jp_days, s.2 + gl_days) else s

/-- Lines 483-486: `last = pairs[-1]["global"]`, `cutoff = last - 30 days`,
`recent = [p for p in pairs if cutoff <= p["global"] <= last]`,
`window = recent if len(recent) >= 2 else pairs[-4:]`.  The argument is the
already-sorted list (sorted by global instant). -/
def selectWindow (pairs : List Pair) : List Pair :=
  let lastGl := (pairs.getLastD ⟨0, 0⟩).global
  let cutoff := lastGl - 2592000
  let recent := pairs.filter (fun p => cutoff ≤ p.global ∧ p.global ≤ lastGl)
  if 2 ≤ recent.length then recent else pairs.drop (pairs.length - 4)

/-- Lines 473-504: `_uma_moe_calculate_recent_acceleration_rate`. -/
def uma_moe_calculate_recent_acceleration_rate
    (confirmed_pairs : List Pair) (catchup_rate mult : ℚ) : ℚ :=
  if confirmed_pairs.length < 2 then catchup_rate
  else
    let pairs := sortPairsByGlobal confirmed_pairs
    let window := selectWindow pairs
    if window.length < 2 then catchup_rate
    else
      let s := sumWindowDeltas window
      if s.2 = 0 then catchup_rate
      else max 1.2 (min ((s.1 : ℚ) / (s.2 : ℚ) * mult) 2)

/-- Lines 524-531: the loop locating `prev_pair` (the last pair with
`jp <= jp_date`, the accumulator) and `next_pair` (the first later pair,
at which the loop breaks). -/
def prevNextLoop (jp_date : Int) : List Pair → Option Pair → Option Pair × Option Pair
  | [], prev_pair => (prev_pair, none)
  | p :: rest, prev_pair =>
      if p.jp ≤ jp_date then prevNextLoop jp_date rest (some p)
      else (prev_pair, some p)

/-- Lines 535-540: the interpolation branch (both surrounding pairs exist),
before time-of-day normalization.  `ratio = (gl_span / jp_span) if jp_span
else 0`; `out = prev_pair["global"] + timedelta(seconds=ratio * jp_off)`. -/
def interpolateOut (prev_pair next_pair : Pair) (jp_date : Int) : ℚ :=
  (prev_pair.global : ℚ) +
    (if ((next_pair.jp - prev_pair.jp : Int) : ℚ) = 0 then 0
     else ((next_pair.global - prev_pair.global : Int) : ℚ) /
          ((next_pair.jp - prev_pair.jp : Int) : ℚ)) *
      ((jp_date - prev_pair.jp : Int) : ℚ)

/-- Lines 541-543: only `prev_pair` exists;
`out = prev_pair["global"] + timedelta(days=days_between(prev.jp, jp_date) / accel)`. -/
def prevOnlyOut (prev_pair : Pair) (jp_date : Int) (accel : ℚ) : ℚ :=
  (prev_pair.global : ℚ) +
    ((uma_moe_days_between prev_pair.jp jp_date : Int) : ℚ) / accel * 86400

/-- Lines 544-546: only `next_pair` exists;
`out = next_pair["global"] - timedelta(days=days_between(jp_date, next.jp) / accel)`. -/
def nextOnlyOut (next_pair : Pair) (jp_date : Int) (accel : ℚ) : ℚ :=
  (next_pair.global : ℚ) -
    ((uma_moe_days_between jp_date next_pair.jp : Int) : ℚ) / accel * 86400

/-- Lines 518-521 and 547-550: the launch fallback;
`days_global = int(days_since // catchup_rate)`,
`out = global_launch + timedelta(days=days_global)`. -/
def launchFallbackOut (jp_launch global_launch jp_date : Int) (catchup_rate : ℚ) : ℚ :=
  (global_launch : ℚ) +
    ((⌊((uma_moe_days_between jp_launch jp_date : Int) : ℚ) / catchup_rate⌋ : Int) : ℚ) * 86400

/-- Model of `out.replace(hour=22, minute=0, second=0, microsecond=0)` on a
UTC datetime whose (possibly fractional) timestamp is `x`: keep the calendar
day, set the clock time to 22:00:00 (79200 seconds). -/
def normalizeTo22 (x : ℚ) : Int :=
  86400 * ⌊x / 86400⌋ + 79200

/-- Dispatch over the four branches of lines 535-550, given the located
`(prev_pair, next_pair)` options. -/
def branchOut (jp_launch global_launch : Int) (catchup_rate accel : ℚ) (jp_date : Int) :
    Option Pair × Option Pair → ℚ
  | (some prev_pair, some next_pair) => interpolateOut prev_pair next_pair jp_date
  | (some prev_pair, none) => prevOnlyOut prev_pair jp_date accel
  | (none, some next_pair) => nextOnlyOut next_pair jp_date accel
  | (none, none) => launchFallbackOut jp_launch global_launch jp_date catchup_rate

/-- Lines 507-552: `_uma_moe_calculate_global_date`, as a total function.
Divisions that would raise `ZeroDivisionError` in Python (only reachable
when `catchup_rate = 0`) take Lean's `x / 0 = 0` default here; the checked
variant below models the raises explicitly. -/
def uma_moe_calculate_global_date (jp_date : Int) (confirmed_pairs : List Pair)
    (jp_launch global_launch : Int) (catchup_rate : ℚ) : Int :=
  let pairs := sortPairsByJp confirmed_pairs
  if pairs.isEmpty then
    normalizeTo22 (launchFallbackOut jp_launch global_launch jp_date catchup_rate)
  else
    let pn := prevNextLoop jp_date pairs none
    let accel := uma_moe_calculate_recent_acceleration_rate pairs catchup_rate 1
    normalizeTo22 (branchOut jp_launch global_launch catchup_rate accel jp_date pn)

/-- Lines 507-552 again, with every Python expression that can raise a
`ZeroDivisionError` modelled as `Except.error`: `days_since // catchup_rate`
(lines 520, 549) raises when `catchup_rate = 0`, and `days / accel`
(lines 542, 545) raises when `accel = 0`.  The interpolation branch guards
its own division (`if jp_span else 0`, line 539) and the acceleration-rate
helper guards `jp_sum / gl_sum` (line 499), so neither can raise. -/
def uma_moe_calculate_global_date_checked (jp_date : Int) (confirmed_pairs : List Pair)
    (jp_launch global_launch : Int) (catchup_rate : ℚ) : Except String Int :=
  let pairs := sortPairsByJp confirmed_pairs
  if pairs.isEmpty then
    if catchup_rate = 0 then .error "ZeroDivisionError"
    else .ok (normalizeTo22 (launchFallbackOut jp_launch global_launch jp_date catchup_rate))
  else
    let accel := uma_moe_calculate_recent_acceleration_rate pairs catchup_rate 1
    match prevNextLoop jp_date pairs none with
    | (some prev_pair, some next_pair) =>
        .ok (normalizeTo22 (interpolateOut prev_pair next_pair jp_date))
    | (some prev_pair, none) =>
        if accel = 0 then .error "ZeroDivisionError"
        else .ok (normalizeTo22 (prevOnlyOut prev_pair jp_date accel))
    | (none, some next_pair) =>
        if accel = 0 then .error "ZeroDivisionError"
        else .ok (normalizeTo22 (nextOnlyOut next_pair jp_date accel))
    | (none, none) =>
        if catchup_rate = 0 then .error "ZeroDivisionError"
        else .ok (normalizeTo22 (launchFallbackOut jp_launch global_launch jp_date catchup_rate))

/-- Modelled from the spec's words (claim C3): the window selection as the
spec describes it, keyed on the REGIONAL (JP) instant: from the pairs sorted
by regional instant, those whose regional instant falls in the 30-day
interval ending at the last pair's regional instant; fall back to the last
4 pairs overall when fewer than 2 qualify. -/
def specWindowByRegional (confirmed_pairs : List Pair) : List Pair :=
  let pairs := sortPairsByJp confirmed_pairs
  let lastJp := (pairs.getLastD ⟨0, 0⟩).jp
  let cutoff := lastJp - 2592000
  let recent := pairs.filter (fun p => cutoff ≤ p.jp ∧ p.jp ≤ lastJp)
  if 2 ≤ recent.length then recent else pairs.drop (pairs.length - 4)

/-- Modelled from the spec's words, with the key the code actually uses
(amended claim C3): the window selection keyed on the GLOBAL instant. -/
def specWindowByGlobal (confirmed_pairs : List Pair) : List Pair :=
  let pairs := sortPairsByGlobal confirmed_pairs
  let lastGl := (pairs.getLastD ⟨0, 0⟩).global
  let cutoff := lastGl - 2592000
  let recent := pairs.filter (fun p => cutoff ≤ p.global ∧ p.global ≤ lastGl)
  if 2 ≤ recent.length then recent else pairs.drop (pairs.length - 4)

/-- Modelled from the spec's words: the rate computed over a given window,
"the ratio sum(regional_day_deltas) / sum(global_day_deltas) (skipping any
consecutive pair whose global-day delta is zero), multiply by a
caller-supplied multiplier, and clamp the result to [1.2, 2.0]", returning
`catchup_rate` unchanged when the window cannot produce a ratio. -/
def rateFromWindow (window : List Pair) (catchup_rate mult : ℚ) : ℚ :=
  if window.length < 2 then catchup_rate
  else
    let s := sumWindowDeltas window
    if s.2 = 0 then catchup_rate
    else max 1.2 (min ((s.1 : ℚ) / (s.2 : ℚ) * mult) 2)

/-- Python `str.strip()` on a character list: drop whitespace at both ends. -/
def stripChars (l : List Char) : List Char :=
  ((l.dropWhile Char.isWhitespace).reverse.dropWhile Char.isWhitespace).reverse

/-- Python `str.strip()`. -/
def pyStrip (s : String) : String :=
  String.mk (stripChars s.toList)

/-- Line 203: `re.sub(r"\s+", " ", s)` — collapse every whitespace run to a
single space.  The boolean argument records whether the previous character
belonged to a whitespace run. -/
def collapseWsAux : Bool → List Char → List Char
  | _, [] => []
  | prevWs, c :: rest =>
      if c.isWhitespace then
        if prevWs then collapseWsAux true rest
        else ' ' :: collapseWsAux true rest
      else c :: collapseWsAux false rest

/-- Lines 197-203: strip, drop `.`, map en dash to hyphen, collapse
whitespace — the normalization applied before the regex matches in
`_parse_game8_utc_date_range`. -/
def game8NormalizeText (text : String) : List Char :=
  collapseWsAux false
    (((stripChars text.toList).filter (fun c => c ≠ '.')).map
      (fun c => if c = '–' then '-' else c))

/-- Split a character list into the space-separated tokens of the
(already whitespace-collapsed) normalized text. -/
def splitTokensAux : List Char → List Char → List String
  | [], cur => [String.mk cur.reverse]
  | c :: rest, cur =>
      if c = ' ' then String.mk cur.reverse :: splitTokensAux rest []
      else splitTokensAux rest (c :: cur)

/-- Tokens of a normalized character list. -/
def tokensOf (l : List Char) : List String :=
  if l = [] then [] else splitTokensAux l []

/-- Regex class `[A-Za-z]+`. -/
def isAlphaToken (s : String) : Bool :=
  s ≠ "" && s.toList.all Char.isAlpha

/-- A character list of `lo` to `hi` ASCII digits. -/
def isDigitsChars (l : List Char) (lo hi : Nat) : Bool :=
  lo ≤ l.length && l.length ≤ hi && l.all Char.isDigit

/-- Numeric value of a digit token. -/
def digitsVal (l : List Char) : Nat :=
  l.foldl (fun n c => n * 10 + (c.toNat - 48)) 0

/-- A `(\d{1,2})` token (a day number). -/
def dayToken (s : String) : Option Int :=
  if isDigitsChars s.toList 1 2 then some (digitsVal s.toList) else none

/-- A `(\d{1,2}),` token (a day number followed by the literal comma that
precedes the year in the range patterns). -/
def dayCommaToken (s : String) : Option Int :=
  match s.toList.reverse with
  | ',' :: rest =>
      if isDigitsChars rest.reverse 1 2 then some (digitsVal rest.reverse) else none
  | _ => none

/-- A `(\d{4})` token (a year). -/
def yearToken (s : String) : Option Int :=
  if isDigitsChars s.toList 4 4 then some (digitsVal s.toList) else none

/-- Python `strptime`'s `%B` directive: full English month names,
case-insensitively. -/
def monthFromFullName (tok : String) : Option Int :=
  match String.mk (tok.toList.map Char.toLower) with
  | "january" => some 1
  | "february" => some 2
  | "march" => some 3
  | "april" => some 4
  | "may" => some 5
  | "june" => some 6
  | "july" => some 7
  | "august" => some 8
  | "september" => some 9
  | "october" => some 10
  | "november" => some 11
  | "december" => some 12
  | _ => none

/-- Python `strptime`'s `%b` directive: abbreviated English month names,
case-insensitively. -/
def monthFromAbbrName (tok : String) : Option Int :=
  match String.mk (tok.toList.map Char.toLower) with
  | "jan" => some 1
  | "feb" => some 2
  | "mar" => some 3
  | "apr" => some 4
  | "may" => some 5
  | "jun" => some 6
  | "jul" => some 7
  | "aug" => some 8
  | "sep" => some 9
  | "oct" => some 10
  | "nov" => some 11
  | "dec" => some 12
  | _ => none

/-- Gregorian leap-year rule. -/
def isLeapYear (y : Int) : Bool :=
  (y % 4 = 0 && y % 100 ≠ 0) || y % 400 = 0

/-- Days in a month of a given year. -/
def daysInMonth (y m : Int) : Int :=
  if m = 2 then (if isLeapYear y then 29 else 28)
  else if m = 4 ∨ m = 6 ∨ m = 9 ∨ m = 11 then 30
  else 31

/-- Days from the Unix epoch (1970-01-01) to the civil date `y-m-d`
(Howard Hinnant's `days_from_civil` algorithm). -/
def daysFromCivil (y m d : Int) : Int :=
  let yy := if m ≤ 2 then y - 1 else y
  let era := yy.fdiv 400
  let yoe := yy - era * 400
  let mp := (m + 9) % 12
  let doy := (153 * mp + 2).fdiv 5 + d - 1
  let doe := yoe * 365 + yoe.fdiv 4 - yoe.fdiv 100 + doy
  era * 146097 + doe - 719468

/-- One `datetime.strptime(f"{month_token} {day} {year}", fmt)` call followed
by `.timestamp()` (naive datetime read with a UTC local zone): `none` models
a raised `ValueError` (month token not matching the directive, day out of
range for the month, or year outside `datetime`'s 1..9999). -/
def strptimeMDY (month : Option Int) (d y : Int) : Option Int :=
  match month with
  | none => none
  | some m =>
      if 1 ≤ y ∧ y ≤ 9999 ∧ 1 ≤ d ∧ d ≤ daysInMonth y m then
        some (86400 * daysFromCivil y m d)
      else none

/-- Lines 211-215 (approximate branch): `strptime` with `"%B %d %Y"` inside a
`try`, retried with `"%b %d %Y"` on `ValueError`.  The second call sits
OUTSIDE any `try`, so its failure propagates to the caller as a raised
`ValueError`, modelled as `Except.error`. -/
def strptimeFullThenAbbr (mTok : String) (d y : Int) : Except String Int :=
  match strptimeMDY (monthFromFullName mTok) d y with
  | some ts => .ok ts
  | none =>
      match strptimeMDY (monthFromAbbrName mTok) d y with
      | some ts => .ok ts
      | none => .error "ValueError"

/-- Lines 225-232 and 239-246 (range branches): `strptime` with `"%b %d %Y"`
inside a `try`, retried with `"%B %d %Y"` whose failure propagates. -/
def strptimeAbbrThenFull (mTok : String) (d y : Int) : Except String Int :=
  match strptimeMDY (monthFromAbbrName mTok) d y with
  | some ts => .ok ts
  | none =>
      match strptimeMDY (monthFromFullName mTok) d y with
      | some ts => .ok ts
      | none => .error "ValueError"

/-- Lines 186-249: `_parse_game8_utc_date_range`.  Returns
`(start_ts, end_ts, label)`; `Except.error` models a `ValueError` escaping
to the caller (the unprotected second `strptime` of each branch). -/
def parse_game8_utc_date_range (text : String) :
    Except String (Option Int × Option Int × String) :=
  let raw := pyStrip text
  if raw = "" then .ok (none, none, "")
  else
    match tokensOf (game8NormalizeText text) with
    | [w, mTok, yTok] =>
        if (w = "Early" ∨ w = "Mid" ∨ w = "Late") ∧ isAlphaToken mTok ∧
            (yearToken yTok).isSome then
          let day : Int := if w = "Early" then 5 else if w = "Mid" then 15 else 25
          match strptimeFullThenAbbr mTok day ((yearToken yTok).getD 0) with
          | .ok ts => .ok (some ts, none, raw)
          | .error e => .error e
        else .ok (none, none, raw)
    | [m1, d1, dash, m2, d2c, yTok] =>
        if isAlphaToken m1 ∧ (dayToken d1).isSome ∧ dash = "-" ∧
            isAlphaToken m2 ∧ (dayCommaToken d2c).isSome ∧ (yearToken yTok).isSome then
          match strptimeAbbrThenFull m1 ((dayToken d1).getD 0) ((yearToken yTok).getD 0) with
          | .error e => .error e
          | .ok startTs =>
              match strptimeAbbrThenFull m2 ((dayCommaToken d2c).getD 0)
                  ((yearToken yTok).getD 0) with
              | .error e => .error e
              | .ok endTs => .ok (some startTs, some endTs, raw)
        else .ok (none, none, raw)
    | [m1, d1c, y1Tok, dash, m2, d2c, y2Tok] =>
        if isAlphaToken m1 ∧ (dayCommaToken d1c).isSome ∧ (yearToken y1Tok).isSome ∧
            dash = "-" ∧ isAlphaToken m2 ∧ (dayCommaToken d2c).isSome ∧
            (yearToken y2Tok).isSome then
          match strptimeAbbrThenFull m1 ((dayCommaToken d1c).getD 0) ((yearToken y1Tok).getD 0) with
          | .error e => .error e
          | .ok startTs =>
              match strptimeAbbrThenFull m2 ((dayCommaToken d2c).getD 0)
                  ((yearToken y2Tok).getD 0) with
              | .error e => .error e
              | .ok endTs => .ok (some startTs, some endTs, raw)
        else .ok (none, none, raw)
    | _ => .ok (none, none, raw)

/-- Python truthiness of an `int | None` value as used on lines 331-349:
truthy iff present and nonzero. -/
def pyTruthy : Option Int → Bool
  | none => false
  | some v => v ≠ 0

/-- Does `needle` lead `hay` (character-list version used by the substring
check)? -/
def leadsWith : List Char → List Char → Bool
  | [], _ => true
  | _ :: _, [] => false
  | a :: as, b :: bs => a = b && leadsWith as bs

/-- Python `needle in hay` substring containment on character lists. -/
def containsSub (hay needle : List Char) : Bool :=
  match hay with
  | [] => needle.isEmpty
  | _ :: t => leadsWith needle hay || containsSub t needle

/-- Line 343: `any(tok in label for tok in ("Early ", "Mid ", "Late "))`. -/
def hasApproxMarker (label : String) : Bool :=
  containsSub label.toList "Early ".toList ||
  containsSub label.toList "Mid ".toList ||
  containsSub label.toList "Late ".toList

/-- Word character for the regex `\b` boundary (`[A-Za-z0-9_]`). -/
def isWordChar (c : Char) : Bool :=
  c.isAlpha || c.isDigit || c = '_'

/-- Does `20\d{2}\b` match at the head of the list? -/
def year20At : List Char → Bool
  | '2' :: '0' :: c :: d :: rest =>
      c.isDigit && d.isDigit && (match rest with | [] => true | r :: _ => !isWordChar r)
  | _ => false

/-- Scanner for `re.search(r"\b20\d{2}\b", label)` (line 346); the boolean
argument records whether the previous character was a word character (so
`\b` holds exactly when it is `false`). -/
def containsYear20Aux : Bool → List Char → Bool
  | _, [] => false
  | prevWord, c :: t =>
      (!prevWord && year20At (c :: t)) || containsYear20Aux (isWordChar c) t

/-- Line 346: `re.search(r"\b20\d{2}\b", label)` is not `None`. -/
def containsYear20 (label : String) : Bool :=
  containsYear20Aux false label.toList

/-- Four consecutive digits at the head, with a word boundary after them. -/
def fourDigitAt : List Char → Bool
  | a :: b :: c :: d :: rest =>
      a.isDigit && b.isDigit && c.isDigit && d.isDigit &&
        (match rest with | [] => true | r :: _ => !isWordChar r)
  | _ => false

/-- Scanner companion of `specContainsFourDigitToken`. -/
def specFourDigitAux : Bool → List Char → Bool
  | _, [] => false
  | prevWord, c :: t =>
      (!prevWord && fourDigitAt (c :: t)) || specFourDigitAux (isWordChar c) t

/-- Modelled from the spec's words (claim C7): the label "contains ... a
four-digit year token" — four consecutive digits delimited by word
boundaries on both sides. -/
def specContainsFourDigitToken (label : String) : Bool :=
  specFourDigitAux false label.toList

/-- Lines 327-349 of `fetch_game8_upcoming_banners`: the per-record upcoming
decision, given the parse result `(start_ts, end_ts, label)` and `now`.
Returns the `_sort` instant the record is retained with (`rows.append`,
line 361 applies `sort_ts or (now_ts + 10**9)`), or `none` when the record
is excluded from the upcoming set. -/
def game8_upcoming_sort (now_ts : Int) (start_ts end_ts : Option Int)
    (label : String) : Option Int :=
  if pyTruthy start_ts ∧ now_ts < start_ts.getD 0 then
    some (start_ts.getD 0)
  else if pyTruthy start_ts ∧ pyTruthy end_ts ∧ start_ts.getD 0 ≤ now_ts ∧
      now_ts ≤ end_ts.getD 0 then
    none
  else if pyTruthy start_ts ∧ pyTruthy end_ts ∧ end_ts.getD 0 < now_ts then
    none
  else if ¬ pyTruthy start_ts ∧ label ≠ "" ∧ hasApproxMarker label then
    some (now_ts + 10 ^ 9)
  else if ¬ pyTruthy start_ts ∧ label ≠ "" ∧ containsYear20 label then
    some (now_ts + 10 ^ 9)
  else none

/-- One entry of the JSON-shaped candidate dicts the fetchers build. -/
structure Item where
  title : String
  subtitle : String
  url : String
  imageUrl : String
deriving DecidableEq, Repr

/-- The dedup key of lines 372, 892 and 894:
`(title or '').strip().lower()`. -/
def bannerKey (title : String) : String :=
  String.mk ((pyStrip title).toList.map Char.toLower)

/-- Modelled from the spec's words (claim C8): a "case-insensitive,
whitespace-normalized title" key — lowercased, with every whitespace run
(internal ones included) collapsed and outer whitespace dropped. -/
def specWhitespaceNormKey (title : String) : String :=
  String.mk (collapseWsAux false (stripChars (title.toList.map Char.toLower)))

/-- Lines 893-900: the loop appending uma.moe banners whose key is new,
breaking once 5 items are reached. -/
def extendUpcomingAux : List Item → List Item → List String → List Item
  | [], acc, _ => acc
  | b :: rest, acc, seen =>
      let key := bannerKey b.title
      if key = "" ∨ key ∈ seen then extendUpcomingAux rest acc seen
      else
        let acc2 := acc ++ [b]
        if 5 ≤ acc2.length then acc2
        else extendUpcomingAux rest acc2 (key :: seen)

/-- Lines 890-900 of `fetch_gametora_data`: extend the (primary-source)
upcoming banners with fallback (uma.moe) banners, deduplicating by
`bannerKey` with the primary entries seeding the seen set. -/
def extendUpcomingBanners (upcoming_banners uma_banners : List Item) : List Item :=
  if upcoming_banners.length < 5 ∧ uma_banners ≠ [] then
    extendUpcomingAux uma_banners upcoming_banners
      (upcoming_banners.map (fun b => bannerKey b.title))
  else upcoming_banners

/-- The `(current_events, upcoming_events)` pair a story-events fetch
produces. -/
structure StoryData where
  current : List Item
  upcoming : List Item
deriving DecidableEq, Repr

/-- The `(upcoming_banners, upcoming_events)` pair a uma.moe fetch
produces. -/
structure UmaMoeData where
  banners : List Item
  events : List Item
deriving DecidableEq, Repr

/-- The module-level `events_cache` dict (lines 34-40). -/
structure EventsCache where
  banners : List Item
  events : List Item
  upcoming_banners : List Item
  upcoming_events : List Item
  last_updated : Option Int
deriving DecidableEq, Repr

/-- Lines 789-1005: `fetch_gametora_data`, modelled at the level of the five
collaborator fetches it performs; `Except.error` stands for an exception
escaping that fetch.  The whole body sits in one big `try` (lines 797-1004)
whose `except` only logs, so an exception from the primary page fetch
(lines 799-800) leaves the cache untouched; the gacha sub-fetch has its own
inner `try` (banners default to `[]`, lines 814-871), and
`fetch_story_events`, `fetch_game8_upcoming_banners` and
`fetch_uma_moe_upcoming` catch their own network errors and return empty
results (lines 110-115, 263-268, 581-588). -/
def fetch_gametora_data (now_ts : Int) (cache : EventsCache)
    (main_page : Except Unit (List Item))
    (gacha : Except Unit (List Item))
    (story : Except Unit StoryData)
    (game8 : Except Unit (List Item))
    (uma_moe : Except Unit UmaMoeData) : EventsCache :=
  match main_page with
  | .error _ => cache
  | .ok mission_events =>
      let banners := match gacha with | .ok b => b | .error _ => []
      let storyData := match story with | .ok d => d | .error _ => ⟨[], []⟩
      let game8Banners := match game8 with | .ok l => l | .error _ => []
      let umaData := match uma_moe with | .ok d => d | .error _ => ⟨[], []⟩
      let upcoming_events :=
        if storyData.upcoming = [] then umaData.events.take 5 else storyData.upcoming
      let upcoming_banners := extendUpcomingBanners game8Banners umaData.banners
      { banners := banners
        events := storyData.current ++ mission_events
        upcoming_banners := upcoming_banners
        upcoming_events := upcoming_events
        last_updated := some now_ts }

/-- One story event record as read from an event page's `__NEXT_DATA__`
(`eventData`): `start`/`end` epoch seconds with `0` for a missing value
(`int(ev.get('start') or 0)`, lines 151-152). -/
structure StoryEventRec where
  title : String
  start : Int
  end_ : Int
deriving DecidableEq, Repr

/-- Classification bucket of a story event. -/
inductive Bucket where
  | current
  | upcoming
  | dropped
deriving DecidableEq, Repr

/-- Lines 163-170: the classification applied to each story event.  Python
truthiness of the `start`/`end` ints is `≠ 0`. -/
def classifyStoryEvent (now_ts : Int) (ev : StoryEventRec) : Bucket :=
  if ev.start ≠ 0 ∧ ev.end_ ≠ 0 ∧ ev.start ≤ now_ts ∧ now_ts ≤ ev.end_ then .current
  else if ev.start ≠ 0 ∧ now_ts < ev.start then .upcoming
  else .dropped

/-- Stable sort of story events by end instant (the `_sort` key of current
events, line 165). -/
def sortByEnd (l : List StoryEventRec) : List StoryEventRec :=
  List.insertionSort (fun a b => a.end_ ≤ b.end_) l

/-- Stable sort of story events by start instant (the `_sort` key of
upcoming events, line 169). -/
def sortByStart (l : List StoryEventRec) : List StoryEventRec :=
  List.insertionSort (fun a b => a.start ≤ b.start) l

/-- Lines 134-183: the pure part of `fetch_story_events` — classify every
fetched event, sort each bucket by its `_sort` instant (`end` for current,
`start` for upcoming; both nonzero in their buckets, so the `or 0` default
never fires), truncate to `limit`. -/
def fetch_story_events (now_ts : Int) (limit : Nat)
    (events : List StoryEventRec) : List StoryEventRec × List StoryEventRec :=
  let current := events.filter (fun ev => classifyStoryEvent now_ts ev == .current)
  let upcoming := events.filter (fun ev => classifyStoryEvent now_ts ev == .upcoming)
  ((sortByEnd current).take limit, (sortByStart upcoming).take limit)

/-! ### Arithmetic helper lemmas -/

lemma fdiv_day_mono {a b : Int} (h : a ≤ b) : a.fdiv 86400 ≤ b.fdiv 86400 := by
  rw [Int.fdiv_eq_ediv _ (by norm_num), Int.fdiv_eq_ediv _ (by norm_num)]
  exact Int.ediv_le_ediv (by norm_num) h

lemma fdiv_day_nonneg {a : Int} (h : 0 ≤ a) : 0 ≤ a.fdiv 86400 := by
  rw [Int.fdiv_eq_ediv _ (by norm_num)]
  exact Int.ediv_nonneg h (by norm_num)

lemma days_between_mono (c : Int) {a b : Int} (h : a ≤ b) :
    uma_moe_days_between c a ≤ uma_moe_days_between c b :=
  fdiv_day_mono (by omega)

lemma days_between_anti (c : Int) {a b : Int} (h : a ≤ b) :
    uma_moe_days_between b c ≤ uma_moe_days_between a c :=
  fdiv_day_mono (by omega)

lemma days_between_nonneg {a b : Int} (h : a ≤ b) : 0 ≤ uma_moe_days_between a b :=
  fdiv_day_nonneg (by omega)

lemma normalizeTo22_mono {x y : ℚ} (h : x ≤ y) : normalizeTo22 x ≤ normalizeTo22 y := by
  unfold normalizeTo22
  have hd : x / 86400 ≤ y / 86400 := by gcongr
  have := Int.floor_le_floor hd
  omega

lemma normalizeTo22_emod (x : ℚ) : normalizeTo22 x % 86400 = 79200 := by
  unfold normalizeTo22
  omega

lemma floor_intCast_div_86400 (n : Int) : ⌊(n : ℚ) / 86400⌋ = n / 86400 := by
  have h : ((86400 : ℕ) : ℚ) = (86400 : ℚ) := by norm_num
  rw [← h, Rat.floor_intCast_div_natCast]
  norm_num

lemma normalizeTo22_intCast (n : Int) :
    normalizeTo22 (n : ℚ) = 86400 * (n / 86400) + 79200 := by
  unfold normalizeTo22
  rw [floor_intCast_div_86400]

lemma acceleration_rate_pos (l : List Pair) {catchup_rate : ℚ} (mult : ℚ)
    (h : 0 < catchup_rate) :
    0 < uma_moe_calculate_recent_acceleration_rate l catchup_rate mult := by
  unfold uma_moe_calculate_recent_acceleration_rate
  dsimp only
  split
  · exact h
  · split
    · exact h
    · split
      · exact h
      · exact lt_of_lt_of_le (by norm_num) (le_max_left _ _)

lemma sumWindowDeltas_short {l : List Pair} (h : l.length < 2) :
    sumWindowDeltas l = (0, 0) := by
  match l with
  | [] => rfl
  | [_] => rfl
  | a :: b :: t => simp at h; omega

/-! ### Branch arithmetic lemmas -/

lemma interpolateOut_mono {prev_pair next_pair : Pair} {t1 t2 : Int}
    (h12 : t1 ≤ t2) (hp : prev_pair.jp ≤ t1) (hn : t2 < next_pair.jp)
    (hg : prev_pair.global ≤ next_pair.global) :
    interpolateOut prev_pair next_pair t1 ≤ interpolateOut prev_pair next_pair t2 := by
  unfold interpolateOut
  have hsp : (0 : ℚ) < ((next_pair.jp - prev_pair.jp : Int) : ℚ) := by
    have : prev_pair.jp < next_pair.jp := lt_of_le_of_lt (le_trans hp h12) hn
    exact_mod_cast sub_pos.mpr this
  rw [if_neg (ne_of_gt hsp)]
  have hr : 0 ≤ ((next_pair.global - prev_pair.global : Int) : ℚ) /
      ((next_pair.jp - prev_pair.jp : Int) : ℚ) := by
    apply div_nonneg _ hsp.le
    exact_mod_cast sub_nonneg.mpr hg
  have hoff : ((t1 - prev_pair.jp : Int) : ℚ) ≤ ((t2 - prev_pair.jp : Int) : ℚ) := by
    exact_mod_cast sub_le_sub_right h12 _
  have := mul_le_mul_of_nonneg_left hoff hr
  linarith

lemma le_interpolateOut {prev_pair next_pair : Pair} {t : Int}
    (hp : prev_pair.jp ≤ t) (hn : t < next_pair.jp)
    (hg : prev_pair.global ≤ next_pair.global) :
    (prev_pair.global : ℚ) ≤ interpolateOut prev_pair next_pair t := by
  unfold interpolateOut
  have hoff : (0 : ℚ) ≤ ((t - prev_pair.jp : Int) : ℚ) := by
    exact_mod_cast sub_nonneg.mpr hp
  split
  · simp
  · have hsp : (0 : ℚ) < ((next_pair.jp - prev_pair.jp : Int) : ℚ) := by
      have : prev_pair.jp < next_pair.jp := lt_of_le_of_lt hp hn
      exact_mod_cast sub_pos.mpr this
    have hr : 0 ≤ ((next_pair.global - prev_pair.global : Int) : ℚ) /
        ((next_pair.jp - prev_pair.jp : Int) : ℚ) := by
      apply div_nonneg _ hsp.le
      exact_mod_cast sub_nonneg.mpr hg
    have := mul_nonneg hr hoff
    linarith

lemma interpolateOut_le {prev_pair next_pair : Pair} {t : Int}
    (hp : prev_pair.jp ≤ t) (hn : t < next_pair.jp)
    (hg : prev_pair.global ≤ next_pair.global) :
    interpolateOut prev_pair next_pair t ≤ (next_pair.global : ℚ) := by
  unfold interpolateOut
  have hsp : (0 : ℚ) < ((next_pair.jp - prev_pair.jp : Int) : ℚ) := by
    have : prev_pair.jp < next_pair.jp := lt_of_le_of_lt hp hn
    exact_mod_cast sub_pos.mpr this
  rw [if_neg (ne_of_gt hsp)]
  have hg0 : (0 : ℚ) ≤ ((next_pair.global - prev_pair.global : Int) : ℚ) := by
    exact_mod_cast sub_nonneg.mpr hg
  have hoff2 : ((t - prev_pair.jp : Int) : ℚ) ≤ ((next_pair.jp - prev_pair.jp : Int) : ℚ) := by
    exact_mod_cast sub_le_sub_right (le_of_lt hn) _
  have h1 := mul_le_mul_of_nonneg_left hoff2 (div_nonneg hg0 hsp.le)
  have h2 : ((next_pair.global - prev_pair.global : Int) : ℚ) /
      ((next_pair.jp - prev_pair.jp : Int) : ℚ) *
      ((next_pair.jp - prev_pair.jp : Int) : ℚ) =
      ((next_pair.global - prev_pair.global : Int) : ℚ) :=
    div_mul_cancel₀ _ (ne_of_gt hsp)
  have h3 : (prev_pair.global : ℚ) + ((next_pair.global - prev_pair.global : Int) : ℚ) =
      (next_pair.global : ℚ) := by
    push_cast
    ring
  linarith

lemma prevOnlyOut_mono {p : Pair} {t1 t2 : Int} {accel : ℚ}
    (hac : 0 < accel) (h12 : t1 ≤ t2) :
    prevOnlyOut p t1 accel ≤ prevOnlyOut p t2 accel := by
  unfold prevOnlyOut
  have hd : ((uma_moe_days_between p.jp t1 : Int) : ℚ) ≤
      ((uma_moe_days_between p.jp t2 : Int) : ℚ) := by
    exact_mod_cast days_between_mono _ h12
  gcongr

lemma le_prevOnlyOut {p : Pair} {t : Int} {accel : ℚ}
    (hac : 0 < accel) (ht : p.jp ≤ t) :
    (p.global : ℚ) ≤ prevOnlyOut p t accel := by
  unfold prevOnlyOut
  have hd : (0 : ℚ) ≤ ((uma_moe_days_between p.jp t : Int) : ℚ) := by
    exact_mod_cast days_between_nonneg ht
  have := mul_nonneg (div_nonneg hd hac.le) (by norm_num : (0 : ℚ) ≤ 86400)
  linarith

lemma nextOnlyOut_mono {p : Pair} {t1 t2 : Int} {accel : ℚ}
    (hac : 0 < accel) (h12 : t1 ≤ t2) :
    nextOnlyOut p t1 accel ≤ nextOnlyOut p t2 accel := by
  unfold nextOnlyOut
  have hd : ((uma_moe_days_between t2 p.jp : Int) : ℚ) ≤
      ((uma_moe_days_between t1 p.jp : Int) : ℚ) := by
    exact_mod_cast days_between_anti _ h12
  gcongr

lemma nextOnlyOut_le {p : Pair} {t : Int} {accel : ℚ}
    (hac : 0 < accel) (ht : t ≤ p.jp) :
    nextOnlyOut p t accel ≤ (p.global : ℚ) := by
  unfold nextOnlyOut
  have hd : (0 : ℚ) ≤ ((uma_moe_days_between t p.jp : Int) : ℚ) := by
    exact_mod_cast days_between_nonneg ht
  have := mul_nonneg (div_nonneg hd hac.le) (by norm_num : (0 : ℚ) ≤ 86400)
  linarith

lemma launchFallbackOut_mono {jp_launch global_launch : Int} {c : ℚ}
    (hc : 0 < c) {t1 t2 : Int} (h12 : t1 ≤ t2) :
    launchFallbackOut jp_launch global_launch t1 c ≤
      launchFallbackOut jp_launch global_launch t2 c := by
  unfold launchFallbackOut
  have hd : ((uma_moe_days_between jp_launch t1 : Int) : ℚ) ≤
      ((uma_moe_days_between jp_launch t2 : Int) : ℚ) := by
    exact_mod_cast days_between_mono _ h12
  have h1 : ((uma_moe_days_between jp_launch t1 : Int) : ℚ) / c ≤
      ((uma_moe_days_between jp_launch t2 : Int) : ℚ) / c := by gcongr
  have h2 := Int.floor_le_floor h1
  have h3 : ((⌊((uma_moe_days_between jp_launch t1 : Int) : ℚ) / c⌋ : Int) : ℚ) ≤
      ((⌊((uma_moe_days_between jp_launch t2 : Int) : ℚ) / c⌋ : Int) : ℚ) := by
    exact_mod_cast h2
  have := mul_le_mul_of_nonneg_right h3 (by norm_num : (0 : ℚ) ≤ 86400)
  linarith

/-! ### The prev/next walk: bounds and monotonicity -/

lemma branch_lower_bound (jp_launch global_launch : Int) (catchup_rate accel : ℚ)
    (hac : 0 < accel) (t : Int) (l : List Pair) :
    ∀ q : Pair, q.jp ≤ t →
      (∀ x ∈ l, q.global ≤ x.global) →
      l.Pairwise (fun a b => a.global ≤ b.global) →
      (q.global : ℚ) ≤
        branchOut jp_launch global_launch catchup_rate accel t (prevNextLoop t l (some q)) := by
  induction l with
  | nil =>
      intro q hq _ _
      simpa [prevNextLoop, branchOut] using le_prevOnlyOut hac hq
  | cons p rest ih =>
      intro q hq hql hpw
      by_cases hp : p.jp ≤ t
      · rw [show prevNextLoop t (p :: rest) (some q) = prevNextLoop t rest (some p) by
          simp [prevNextLoop, hp]]
        have hrest := (List.pairwise_cons.mp hpw).1
        have h1 := ih p hp hrest (List.pairwise_cons.mp hpw).2
        have h2 : (q.global : ℚ) ≤ (p.global : ℚ) := by
          exact_mod_cast hql p (List.mem_cons_self _ _)
        exact le_trans h2 h1
      · rw [show prevNextLoop t (p :: rest) (some q) = (some q, some p) by
          simp [prevNextLoop, hp]]
        exact le_interpolateOut hq (lt_of_not_le hp) (hql p (List.mem_cons_self _ _))

lemma branch_mono (jp_launch global_launch : Int) (catchup_rate accel : ℚ)
    (hc : 0 < catchup_rate) (hac : 0 < accel) (t1 t2 : Int) (ht : t1 ≤ t2)
    (l : List Pair) :
    ∀ prev0 : Option Pair,
      l.Pairwise (fun a b => a.global ≤ b.global) →
      (∀ q, prev0 = some q → q.jp ≤ t1 ∧ ∀ x ∈ l, q.global ≤ x.global) →
      branchOut jp_launch global_launch catchup_rate accel t1 (prevNextLoop t1 l prev0) ≤
        branchOut jp_launch global_launch catchup_rate accel t2 (prevNextLoop t2 l prev0) := by
  induction l with
  | nil =>
      intro prev0 _ hinv
      cases prev0 with
      | none => simpa [prevNextLoop, branchOut] using launchFallbackOut_mono hc ht
      | some q => simpa [prevNextLoop, branchOut] using prevOnlyOut_mono hac ht
  | cons p rest ih =>
      intro prev0 hpw hinv
      have hhead := (List.pairwise_cons.mp hpw).1
      have htail := (List.pairwise_cons.mp hpw).2
      by_cases hp1 : p.jp ≤ t1
      · have hp2 : p.jp ≤ t2 := le_trans hp1 ht
        rw [show prevNextLoop t1 (p :: rest) prev0 = prevNextLoop t1 rest (some p) by
            simp [prevNextLoop, hp1],
          show prevNextLoop t2 (p :: rest) prev0 = prevNextLoop t2 rest (some p) by
            simp [prevNextLoop, hp2]]
        refine ih (some p) htail ?_
        intro q hq
        cases hq
        exact ⟨hp1, hhead⟩
      · by_cases hp2 : p.jp ≤ t2
        · rw [show prevNextLoop t1 (p :: rest) prev0 = (prev0, some p) by
              simp [prevNextLoop, hp1],
            show prevNextLoop t2 (p :: rest) prev0 = prevNextLoop t2 rest (some p) by
              simp [prevNextLoop, hp2]]
          have hub : branchOut jp_launch global_launch catchup_rate accel t1 (prev0, some p) ≤
              (p.global : ℚ) := by
            cases prev0 with
            | none => exact nextOnlyOut_le hac (le_of_lt (lt_of_not_le hp1))
            | some q =>
                obtain ⟨hqt, hql⟩ := hinv q rfl
                exact interpolateOut_le hqt (lt_of_not_le hp1)
                  (hql p (List.mem_cons_self _ _))
          have hlb : (p.global : ℚ) ≤
              branchOut jp_launch global_launch catchup_rate accel t2
                (prevNextLoop t2 rest (some p)) :=
            branch_lower_bound jp_launch global_launch catchup_rate accel hac t2 rest p hp2
              hhead htail
          exact le_trans hub hlb
        · rw [show prevNextLoop t1 (p :: rest) prev0 = (prev0, some p) by
              simp [prevNextLoop, hp1],
            show prevNextLoop t2 (p :: rest) prev0 = (prev0, some p) by
              simp [prevNextLoop, hp2]]
          cases prev0 with
          | none => exact nextOnlyOut_mono hac ht
          | some q =>
              obtain ⟨hqt, hql⟩ := hinv q rfl
              exact interpolateOut_mono ht hqt (lt_of_not_le hp2)
                (hql p (List.mem_cons_self _ _))

/-! ### Claim theorems: the JP to Global mapping -/

/-- Concrete pairs table whose global instants decrease as the regional
instants increase (day 0 maps to day 100, day 10 maps to day 50). -/
def exNonMono : List Pair :=
  [⟨0, 8640000⟩, ⟨864000, 4320000⟩]

/-- Concrete well-behaved pairs table (globals non-decreasing in regional
order). -/
def exMono : List Pair :=
  [⟨0, 0⟩, ⟨864000, 864000⟩]

/-- C1 (amended): for every confirmed-pairs table with at least 2 entries
WHOSE GLOBAL INSTANTS ARE NON-DECREASING when the table is sorted by
regional instant, and every positive base catch-up rate, the estimate
produced by `_uma_moe_calculate_global_date` is monotonically non-decreasing
in the regional instant. -/
theorem global_date_monotone_in_regional (confirmed_pairs : List Pair)
    (jp_launch global_launch : Int) (catchup_rate : ℚ)
    (hlen : 2 ≤ confirmed_pairs.length) (hcr : 0 < catchup_rate)
    (hchain : (sortPairsByJp confirmed_pairs).Pairwise (fun a b => a.global ≤ b.global))
    {r1 r2 : Int} (hr : r1 ≤ r2) :
    uma_moe_calculate_global_date r1 confirmed_pairs jp_launch global_launch catchup_rate ≤
      uma_moe_calculate_global_date r2 confirmed_pairs jp_launch global_launch catchup_rate := by
  have hne : (sortPairsByJp confirmed_pairs).isEmpty = false := by
    have hl : (sortPairsByJp confirmed_pairs).length = confirmed_pairs.length :=
      List.length_insertionSort _ _
    cases h : sortPairsByJp confirmed_pairs with
    | nil => rw [h] at hl; simp at hl; omega
    | cons a l => rfl
  unfold uma_moe_calculate_global_date
  dsimp only
  rw [hne]
  simp only [Bool.false_eq_true, if_false]
  apply normalizeTo22_mono
  exact branch_mono jp_launch global_launch catchup_rate
    (uma_moe_calculate_recent_acceleration_rate (sortPairsByJp confirmed_pairs) catchup_rate 1)
    hcr (acceleration_rate_pos _ _ hcr) r1 r2 hr (sortPairsByJp confirmed_pairs) none hchain
    (fun q h => by cases h)

/-- Witness for C1 at a concrete input. -/
theorem global_date_monotone_in_regional_witness :
    uma_moe_calculate_global_date 100000 exMono 0 0 (8 / 5) ≤
      uma_moe_calculate_global_date 500000 exMono 0 0 (8 / 5) :=
  global_date_monotone_in_regional exMono 0 0 (8 / 5) (by decide) (by norm_num)
    (by decide) (by norm_num)

/-- Counterexample to C1 as stated: on `exNonMono` (2 entries, fixed table)
the estimate for the later regional instant (day 10) is strictly below the
estimate for the earlier one (day 0). -/
theorem global_date_monotone_counterexample :
    uma_moe_calculate_global_date 864000 exNonMono 0 0 (8 / 5) <
      uma_moe_calculate_global_date 0 exNonMono 0 0 (8 / 5) := by
  have e1 : sortPairsByJp exNonMono = exNonMono := by decide
  have e2 : prevNextLoop 864000 exNonMono none = (some ⟨864000, 4320000⟩, none) := by decide
  have e3 : prevNextLoop 0 exNonMono none =
      (some ⟨0, 8640000⟩, some ⟨864000, 4320000⟩) := by decide
  have hemp : exNonMono.isEmpty = false := by decide
  unfold uma_moe_calculate_global_date
  dsimp only
  rw [e1, hemp]
  simp only [Bool.false_eq_true, if_false, e2, e3, branchOut]
  have hv1 : prevOnlyOut ⟨864000, 4320000⟩ 864000
      (uma_moe_calculate_recent_acceleration_rate exNonMono (8 / 5) 1) = ((4320000 : Int) : ℚ) := by
    unfold prevOnlyOut
    have : uma_moe_days_between 864000 864000 = 0 := by decide
    rw [this]
    push_cast
    rw [zero_div]
    ring
  have hv2 : interpolateOut ⟨0, 8640000⟩ ⟨864000, 4320000⟩ 0 = ((8640000 : Int) : ℚ) := by
    unfold interpolateOut
    norm_num
  rw [hv1, hv2, normalizeTo22_intCast, normalizeTo22_intCast]
  decide

/-- C4: in every branch, the instant returned by
`_uma_moe_calculate_global_date` has time-of-day 22:00:00 — its timestamp
modulo 86400 is 79200 seconds. -/
theorem global_date_time_of_day (jp_date : Int) (confirmed_pairs : List Pair)
    (jp_launch global_launch : Int) (catchup_rate : ℚ) :
    uma_moe_calculate_global_date jp_date confirmed_pairs jp_launch global_launch
        catchup_rate % 86400 = 79200 := by
  unfold uma_moe_calculate_global_date
  dsimp only
  split
  · exact normalizeTo22_emod _
  · exact normalizeTo22_emod _

/-- C10: with a positive base catch-up rate the mapping is total — the
checked variant (which models every potential `ZeroDivisionError` as an
error) returns exactly the value of the total function; and whenever the
surrounding anchors have equal regional instants the interpolation branch
takes ratio 0 and yields the previous anchor's global instant normalized to
22:00. -/
theorem global_date_total_and_zero_span (jp_date : Int) (confirmed_pairs : List Pair)
    (jp_launch global_launch : Int) {catchup_rate : ℚ} (hc : 0 < catchup_rate) :
    uma_moe_calculate_global_date_checked jp_date confirmed_pairs jp_launch global_launch
        catchup_rate =
      .ok (uma_moe_calculate_global_date jp_date confirmed_pairs jp_launch global_launch
        catchup_rate) ∧
    ∀ (prev_pair next_pair : Pair) (t : Int), prev_pair.jp = next_pair.jp →
      normalizeTo22 (interpolateOut prev_pair next_pair t) =
        normalizeTo22 ((prev_pair.global : Int) : ℚ) := by
  constructor
  · have hac : 0 < uma_moe_calculate_recent_acceleration_rate
        (sortPairsByJp confirmed_pairs) catchup_rate 1 :=
      acceleration_rate_pos _ _ hc
    unfold uma_moe_calculate_global_date uma_moe_calculate_global_date_checked
    dsimp only
    split
    · rw [if_neg (ne_of_gt hc)]
    · rcases hpn : prevNextLoop jp_date (sortPairsByJp confirmed_pairs) none with ⟨op, onx⟩
      cases op <;> cases onx <;>
        simp only [hpn, branchOut, if_neg (ne_of_gt hac), if_neg (ne_of_gt hc)]
  · intro prev_pair next_pair t h
    unfold interpolateOut
    rw [if_pos (by rw [h]; push_cast; ring)]
    norm_num

/-- Witness for C10 at a concrete input (the interpolation branch at the
first anchor). -/
theorem global_date_total_and_zero_span_witness :
    uma_moe_calculate_global_date_checked 0 exMono 0 0 (8 / 5) =
      .ok (uma_moe_calculate_global_date 0 exMono 0 0 (8 / 5)) :=
  (global_date_total_and_zero_span 0 exMono 0 0 (by norm_num)).1

/-! ### Claim theorems: the acceleration rate -/

/-- Two confirmed pairs whose global instants lie one hour apart: the summed
global day delta over the selected window is zero. -/
def exZeroGl : List Pair :=
  [⟨0, 0⟩, ⟨86400, 3600⟩]

/-- Five confirmed pairs on which windowing by global instant and windowing
by regional instant select different windows with different rates
(days 0/130/150/168/190 regional against 0/100/112/126/140 global). -/
def exFivePairs : List Pair :=
  [⟨0, 0⟩, ⟨11232000, 8640000⟩, ⟨12960000, 9676800⟩,
   ⟨14515200, 10886400⟩, ⟨16416000, 12096000⟩]

/-- C2 (amended): the acceleration rate equals `base_catchup_rate` when
fewer than 2 confirmed pairs exist, and ALSO whenever the summed global day
delta over the selected window is zero; it lies in [1.2, 2.0] exactly when
that summed delta is nonzero (given at least 2 pairs). -/
theorem acceleration_rate_bounds (confirmed_pairs : List Pair) (catchup_rate mult : ℚ) :
    (confirmed_pairs.length < 2 →
      uma_moe_calculate_recent_acceleration_rate confirmed_pairs catchup_rate mult =
        catchup_rate) ∧
    (2 ≤ confirmed_pairs.length →
      (sumWindowDeltas (selectWindow (sortPairsByGlobal confirmed_pairs))).2 ≠ 0 →
      1.2 ≤ uma_moe_calculate_recent_acceleration_rate confirmed_pairs catchup_rate mult ∧
        uma_moe_calculate_recent_acceleration_rate confirmed_pairs catchup_rate mult ≤ 2) ∧
    ((sumWindowDeltas (selectWindow (sortPairsByGlobal confirmed_pairs))).2 = 0 →
      uma_moe_calculate_recent_acceleration_rate confirmed_pairs catchup_rate mult =
        catchup_rate) := by
  refine ⟨?_, ?_, ?_⟩
  · intro h
    unfold uma_moe_calculate_recent_acceleration_rate
    rw [if_pos h]
  · intro hlen hs
    unfold uma_moe_calculate_recent_acceleration_rate
    dsimp only
    rw [if_neg (by omega)]
    have hwl : ¬ (selectWindow (sortPairsByGlobal confirmed_pairs)).length < 2 := by
      intro hshort
      exact hs (by rw [sumWindowDeltas_short hshort])
    rw [if_neg hwl, if_neg hs]
    constructor
    · exact le_max_left _ _
    · exact max_le (by norm_num) (min_le_right _ _)
  · intro hs
    unfold uma_moe_calculate_recent_acceleration_rate
    dsimp only
    split_ifs with h1 h2 <;> rfl

/-- Witness for C2 at concrete inputs: a single pair returns the base rate,
and on `exFivePairs` (nonzero summed global delta) the rate is clamped into
[1.2, 2.0]. -/
theorem acceleration_rate_bounds_witness :
    uma_moe_calculate_recent_acceleration_rate [⟨0, 0⟩] (7 / 2) 1 = 7 / 2 ∧
    (1.2 ≤ uma_moe_calculate_recent_acceleration_rate exFivePairs (8 / 5) 1 ∧
      uma_moe_calculate_recent_acceleration_rate exFivePairs (8 / 5) 1 ≤ 2) :=
  ⟨(acceleration_rate_bounds [⟨0, 0⟩] (7 / 2) 1).1 (by decide),
   (acceleration_rate_bounds exFivePairs (8 / 5) 1).2.1 (by decide) (by decide)⟩

/-- Counterexample to C2 as stated: on `exZeroGl` the selected window holds
2 pairs, yet the returned rate is the base rate 3, outside [1.2, 2.0] (so
the rate also equals `base_catchup_rate` with 2 confirmed pairs present,
against the claimed "exactly when"). -/
theorem acceleration_rate_counterexample :
    (selectWindow (sortPairsByGlobal exZeroGl)).length = 2 ∧
    uma_moe_calculate_recent_acceleration_rate exZeroGl 3 1 = 3 ∧
    ¬ uma_moe_calculate_recent_acceleration_rate exZeroGl 3 1 ≤ 2 := by
  have e2 : uma_moe_calculate_recent_acceleration_rate exZeroGl 3 1 = 3 := by
    unfold uma_moe_calculate_recent_acceleration_rate
    dsimp only
    rw [if_neg (by decide), if_neg (by decide), if_pos (by decide)]
  exact ⟨by decide, e2, by rw [e2]; norm_num⟩

/-- C3 (amended): the acceleration-rate computation selects its window from
the confirmed pairs sorted by GLOBAL instant — the pairs whose global
instant falls in the 30-day interval ending at the global instant of the
last pair, falling back to the last 4 pairs overall when fewer than 2 fall
in that window — and computes the clamped delta ratio over that window. -/
theorem acceleration_window_by_global (confirmed_pairs : List Pair)
    (catchup_rate mult : ℚ) (hlen : 2 ≤ confirmed_pairs.length) :
    uma_moe_calculate_recent_acceleration_rate confirmed_pairs catchup_rate mult =
      rateFromWindow (specWindowByGlobal confirmed_pairs) catchup_rate mult ∧
    specWindowByGlobal confirmed_pairs = selectWindow (sortPairsByGlobal confirmed_pairs) := by
  constructor
  · unfold uma_moe_calculate_recent_acceleration_rate rateFromWindow specWindowByGlobal
      selectWindow
    dsimp only
    rw [if_neg (by omega)]
  · rfl

/-- Witness for C3 at a concrete input. -/
theorem acceleration_window_by_global_witness :
    uma_moe_calculate_recent_acceleration_rate exFivePairs (8 / 5) 1 =
      rateFromWindow (specWindowByGlobal exFivePairs) (8 / 5) 1 :=
  (acceleration_window_by_global exFivePairs (8 / 5) 1 (by decide)).1

/-- Counterexample to C3 as stated: on `exFivePairs` the code's window
differs from the regional-instant window the claim describes, and the
resulting rates differ (10/7 against 11/7). -/
theorem acceleration_window_counterexample :
    selectWindow (sortPairsByGlobal exFivePairs) ≠ specWindowByRegional exFivePairs ∧
    uma_moe_calculate_recent_acceleration_rate exFivePairs (8 / 5) 1 ≠
      rateFromWindow (specWindowByRegional exFivePairs) (8 / 5) 1 := by
  constructor
  · decide
  · have h1 : uma_moe_calculate_recent_acceleration_rate exFivePairs (8 / 5) 1 = 10 / 7 := by
      have e1 : sortPairsByGlobal exFivePairs = exFivePairs := by decide
      have e2 : selectWindow exFivePairs = exFivePairs.drop 2 := by decide
      have e3 : sumWindowDeltas (exFivePairs.drop 2) = (40, 28) := by decide
      have hlen : ¬ exFivePairs.length < 2 := by decide
      have hwl : ¬ (exFivePairs.drop 2).length < 2 := by decide
      simp only [uma_moe_calculate_recent_acceleration_rate, e1, e2, e3, hlen, if_false,
        ite_false, hwl]
      have hmul : ((40 : Int) : ℚ) / ((28 : Int) : ℚ) * 1 = 10 / 7 := by norm_num
      rw [if_neg (by norm_num), hmul]
      rw [max_eq_right, min_eq_left] <;> norm_num
    have h2 : rateFromWindow (specWindowByRegional exFivePairs) (8 / 5) 1 = 11 / 7 := by
      have e1 : specWindowByRegional exFivePairs = exFivePairs.drop 3 := by decide
      have e2 : sumWindowDeltas (exFivePairs.drop 3) = (22, 14) := by decide
      have hwl : ¬ (exFivePairs.drop 3).length < 2 := by decide
      simp only [rateFromWindow, e1, e2, hwl, if_false, ite_false]
      have hmul : ((22 : Int) : ℚ) / ((14 : Int) : ℚ) * 1 = 11 / 7 := by norm_num
      rw [if_neg (by norm_num), hmul]
      rw [max_eq_right, min_eq_left] <;> norm_num
    rw [h1, h2]
    norm_num

/-! ### Claim theorems: story event classification -/

/-- C5: a story event with resolved (nonzero) start and end instants
satisfying the data-model invariant `start <= end` classifies as current
when `start <= now <= end`, as upcoming when `start > now`, and appears in
neither output list of `fetch_story_events` when `end < now`. -/
theorem story_event_classification (now_ts : Int) (limit : Nat)
    (events : List StoryEventRec) (ev : StoryEventRec)
    (hs : ev.start ≠ 0) (he : ev.end_ ≠ 0) (hse : ev.start ≤ ev.end_) :
    (ev.start ≤ now_ts → now_ts ≤ ev.end_ → classifyStoryEvent now_ts ev = .current) ∧
    (now_ts < ev.start → classifyStoryEvent now_ts ev = .upcoming) ∧
    (ev.end_ < now_ts → ev ∈ events →
      ev ∉ (fetch_story_events now_ts limit events).1 ∧
      ev ∉ (fetch_story_events now_ts limit events).2) := by
  refine ⟨?_, ?_, ?_⟩
  · intro h1 h2
    unfold classifyStoryEvent
    rw [if_pos ⟨hs, he, h1, h2⟩]
  · intro h1
    unfold classifyStoryEvent
    rw [if_neg (by intro h; omega), if_pos ⟨hs, h1⟩]
  · intro hend _
    have hcl : classifyStoryEvent now_ts ev = .dropped := by
      unfold classifyStoryEvent
      rw [if_neg (by intro h; omega), if_neg (by intro h; omega)]
    constructor
    · intro hmem1
      unfold fetch_story_events at hmem1
      dsimp only at hmem1
      have h2 := List.mem_of_mem_take hmem1
      unfold sortByEnd at h2
      rw [List.mem_insertionSort] at h2
      have h3 := (List.mem_filter.mp h2).2
      rw [beq_iff_eq, hcl] at h3
      cases h3
    · intro hmem2
      unfold fetch_story_events at hmem2
      dsimp only at hmem2
      have h2 := List.mem_of_mem_take hmem2
      unfold sortByStart at h2
      rw [List.mem_insertionSort] at h2
      have h3 := (List.mem_filter.mp h2).2
      rw [beq_iff_eq, hcl] at h3
      cases h3

/-- Witness for C5 at concrete inputs. -/
theorem story_event_classification_witness :
    classifyStoryEvent 55 ⟨"E", 50, 60⟩ = .current ∧
    classifyStoryEvent 40 ⟨"E", 50, 60⟩ = .upcoming ∧
    (⟨"E", 50, 60⟩ : StoryEventRec) ∉ (fetch_story_events 99 5 [⟨"E", 50, 60⟩]).1 ∧
    (⟨"E", 50, 60⟩ : StoryEventRec) ∉ (fetch_story_events 99 5 [⟨"E", 50, 60⟩]).2 :=
  ⟨(story_event_classification 55 5 [⟨"E", 50, 60⟩] ⟨"E", 50, 60⟩ (by decide) (by decide)
      (by decide)).1 (by decide) (by decide),
   (story_event_classification 40 5 [⟨"E", 50, 60⟩] ⟨"E", 50, 60⟩ (by decide) (by decide)
      (by decide)).2.1 (by decide),
   ((story_event_classification 99 5 [⟨"E", 50, 60⟩] ⟨"E", 50, 60⟩ (by decide) (by decide)
      (by decide)).2.2 (by decide) (by decide)).1,
   ((story_event_classification 99 5 [⟨"E", 50, 60⟩] ⟨"E", 50, 60⟩ (by decide) (by decide)
      (by decide)).2.2 (by decide) (by decide)).2⟩

/-! ### Claim theorems: the Game8 date normalizer -/

/-- C6: the date normalizer CAN raise.  On the input "Early Foo 2026" the
approximate-phrase regex matches, the first `strptime` (`%B`) fails inside
its `try`, and the retry `strptime` (`%b`, line 215) fails OUTSIDE any
`try`: a `ValueError` escapes to the caller instead of an unresolved
result. -/
theorem parse_game8_raises_on_bad_month :
    parse_game8_utc_date_range "Early Foo 2026" = .error "ValueError" ∧
    parse_game8_utc_date_range "Dec 1 - Dec. 10, 2025" =
      .ok (some 1764547200, some 1765324800, "Dec 1 - Dec. 10, 2025") :=
  ⟨rfl, rfl⟩

/-- C7 (amended): in the Game8 upcoming-banner source, a record with an
exact parsed range (satisfying the data-model invariant `start <= end`)
whose end is before `now` is excluded; one whose range straddles `now` is
excluded; and a record with no parseable date whose label contains an
Early/Mid/Late marker or a 20xx year token (the code matches
`\b20\d{2}\b`, not arbitrary four-digit years) is retained with the
synthetic sort instant `now + 10^9`. -/
theorem game8_upcoming_rules :
    (∀ (now_ts s e : Int) (label : String), s ≠ 0 → e ≠ 0 → s ≤ e → e < now_ts →
      game8_upcoming_sort now_ts (some s) (some e) label = none) ∧
    (∀ (now_ts s e : Int) (label : String), s ≠ 0 → e ≠ 0 → s ≤ now_ts → now_ts ≤ e →
      game8_upcoming_sort now_ts (some s) (some e) label = none) ∧
    (∀ (now_ts : Int) (label : String), label ≠ "" →
      hasApproxMarker label = true ∨ containsYear20 label = true →
      game8_upcoming_sort now_ts none none label = some (now_ts + 10 ^ 9)) := by
  refine ⟨?_, ?_, ?_⟩
  · intro now_ts s e label hs he hse hend
    unfold game8_upcoming_sort
    split_ifs with h1 h2 h3 h4 h5
    · exfalso
      obtain ⟨hb, hlt⟩ := h1
      simp only [Option.getD_some] at hlt
      omega
    · rfl
    · rfl
    · exact absurd (by simp [pyTruthy, hs]) h4.1
    · exact absurd (by simp [pyTruthy, hs]) h5.1
    · rfl
  · intro now_ts s e label hs he h1 h2
    unfold game8_upcoming_sort
    split_ifs with hc1 hc2 hc3 hc4 hc5
    · exfalso
      obtain ⟨hb, hlt⟩ := hc1
      simp only [Option.getD_some] at hlt
      omega
    · rfl
    · rfl
    · exact absurd (by simp [pyTruthy, hs]) hc4.1
    · exact absurd (by simp [pyTruthy, hs]) hc5.1
    · rfl
  · intro now_ts label hl hany
    unfold game8_upcoming_sort
    split_ifs with h1 h2 h3 h4 h5
    · exact absurd h1.1 (by simp [pyTruthy])
    · exact absurd h2.1 (by simp [pyTruthy])
    · exact absurd h3.1 (by simp [pyTruthy])
    · rfl
    · rfl
    · exfalso
      rcases hany with hm | hy
      · exact h4 ⟨by simp [pyTruthy], hl, hm⟩
      · exact h5 ⟨by simp [pyTruthy], hl, hy⟩

/-- Witness for C7 at concrete inputs. -/
theorem game8_upcoming_rules_witness :
    game8_upcoming_sort 100 (some 10) (some 20) "x" = none ∧
    game8_upcoming_sort 15 (some 10) (some 20) "x" = none ∧
    game8_upcoming_sort 1700000000 none none "Early January 2026" =
      some (1700000000 + 10 ^ 9) :=
  ⟨game8_upcoming_rules.1 100 10 20 "x" (by decide) (by decide) (by decide) (by decide),
   game8_upcoming_rules.2.1 15 10 20 "x" (by decide) (by decide) (by decide) (by decide),
   game8_upcoming_rules.2.2 1700000000 "Early January 2026" (by decide)
     (Or.inl (by decide))⟩

/-- Counterexample to C7 as stated: the label "Anniversary 1999" has no
parseable date and contains the four-digit year token 1999, yet the record
is dropped (the code's regex only matches 20xx years). -/
theorem game8_year_token_counterexample :
    specContainsFourDigitToken "Anniversary 1999" = true ∧
    parse_game8_utc_date_range "Anniversary 1999" = .ok (none, none, "Anniversary 1999") ∧
    game8_upcoming_sort 1700000000 none none "Anniversary 1999" = none :=
  ⟨rfl, rfl, rfl⟩

/-! ### Claim theorems: merge deduplication and refresh isolation -/

lemma extendUpcomingAux_filter (k : String) (rest : List Item) :
    ∀ (acc : List Item) (seen : List String), k ∈ seen →
      (extendUpcomingAux rest acc seen).filter (fun b => bannerKey b.title == k) =
        acc.filter (fun b => bannerKey b.title == k) := by
  induction rest with
  | nil => intro acc seen _; rfl
  | cons b rest ih =>
      intro acc seen hk
      unfold extendUpcomingAux
      dsimp only
      split_ifs with h1 h2
      · exact ih acc seen hk
      · have hbk : ¬ bannerKey b.title = k := by
          intro hEq
          exact h1 (Or.inr (hEq ▸ hk))
        rw [List.filter_append]
        simp [hbk]
      · have hbk : ¬ bannerKey b.title = k := by
          intro hEq
          exact h1 (Or.inr (hEq ▸ hk))
        rw [ih (acc ++ [b]) (bannerKey b.title :: seen) (List.mem_cons_of_mem _ hk),
          List.filter_append]
        simp [hbk]

/-- C8 (amended): merge deduplication is by case-insensitive title after
trimming leading/trailing whitespace only (internal whitespace is
significant); when a fallback candidate's key collides with a primary key,
the merged output's entries with that key are exactly the primary list's
entries — the primary source's version wins. -/
theorem merge_dedup_primary_wins (primary fallback : List Item) (k : String)
    (hk : k ∈ primary.map (fun b => bannerKey b.title)) :
    (extendUpcomingBanners primary fallback).filter (fun b => bannerKey b.title == k) =
      primary.filter (fun b => bannerKey b.title == k) := by
  unfold extendUpcomingBanners
  split
  · exact extendUpcomingAux_filter k fallback primary _ hk
  · rfl

/-- Concrete primary-source item. -/
def pItem : Item := ⟨"Character Gacha — Alpha", "", "", ""⟩

/-- Concrete fallback-source item: same title up to case only. -/
def fItemCase : Item := ⟨"CHARACTER GACHA — ALPHA", "", "", ""⟩

/-- Concrete fallback-source item: same title up to case and INTERNAL
whitespace (a doubled space). -/
def fItemWs : Item := ⟨"character  gacha — alpha", "", "", ""⟩

/-- Witness for C8 at a concrete input: a case-variant fallback title is
deduplicated away, keeping the primary's entry. -/
theorem merge_dedup_primary_wins_witness :
    (extendUpcomingBanners [pItem] [fItemCase]).filter
        (fun b => bannerKey b.title == "character gacha — alpha") =
      [pItem].filter (fun b => bannerKey b.title == "character gacha — alpha") :=
  merge_dedup_primary_wins [pItem] [fItemCase] "character gacha — alpha" (by decide)

/-- Counterexample to C8 as stated: two titles equal up to case and
whitespace (an internal doubled space) are NOT merged — both survive,
because the code's key only strips outer whitespace. -/
theorem merge_dedup_counterexample :
    specWhitespaceNormKey fItemWs.title = specWhitespaceNormKey pItem.title ∧
    extendUpcomingBanners [pItem] [fItemWs] = [pItem, fItemWs] := by
  constructor
  · decide
  · decide

/-- C9 (amended): a failing gacha sub-fetch, story-events fetch, Game8 fetch
or uma.moe fetch contributes exactly what an empty successful fetch would
(the other sources flow into the published result unaffected), while a
failing primary (GameTora) page fetch aborts the whole refresh, leaving the
cache untouched — the fallback sources' items are then NOT published. -/
theorem refresh_source_isolation (now_ts : Int) (cache : EventsCache)
    (m : List Item) (gacha : Except Unit (List Item)) (story : Except Unit StoryData)
    (game8 : Except Unit (List Item)) (uma_moe : Except Unit UmaMoeData) :
    fetch_gametora_data now_ts cache (.error ()) gacha story game8 uma_moe = cache ∧
    fetch_gametora_data now_ts cache (.ok m) (.error ()) story game8 uma_moe =
      fetch_gametora_data now_ts cache (.ok m) (.ok []) story game8 uma_moe ∧
    fetch_gametora_data now_ts cache (.ok m) gacha (.error ()) game8 uma_moe =
      fetch_gametora_data now_ts cache (.ok m) gacha (.ok ⟨[], []⟩) game8 uma_moe ∧
    fetch_gametora_data now_ts cache (.ok m) gacha story (.error ()) uma_moe =
      fetch_gametora_data now_ts cache (.ok m) gacha story (.ok []) uma_moe ∧
    fetch_gametora_data now_ts cache (.ok m) gacha story game8 (.error ()) =
      fetch_gametora_data now_ts cache (.ok m) gacha story game8 (.ok ⟨[], []⟩) :=
  ⟨rfl, rfl, rfl, rfl, rfl⟩

/-- Concrete Game8 fallback row and an empty initial cache. -/
def game8Row : Item := ⟨"New Year Gacha", "Dec 28, 2099 - Jan 7, 2100 (UTC)", "https://game8.co", ""⟩

/-- The initial (never refreshed) cache value. -/
def emptyCache : EventsCache := ⟨[], [], [], [], none⟩

/-- Counterexample to C9 as stated: the Game8 fallback fetch succeeds with
an item, but the primary page fetch fails — the refresh leaves the cache
untouched and the fallback's upcoming item is NOT published. -/
theorem refresh_primary_failure_counterexample :
    fetch_gametora_data 1700000000 emptyCache (.error ()) (.ok []) (.ok ⟨[], []⟩)
        (.ok [game8Row]) (.ok ⟨[], []⟩) = emptyCache ∧
    emptyCache.upcoming_banners = [] ∧ emptyCache.last_updated = none :=
  ⟨rfl, rfl, rfl⟩

end UmaTracker
